import Mathlib

/-!
# Moostaka route matching — shallow embedding

A shallow embedding of the route-matching core of `src/moostaka.js`
(`Moostaka.navigate`, `Moostaka.route`, helper `lowerCase`) and proofs of the
specification's claims about it.

Modelling choices:
* JavaScript strings are Lean `String`; `String.prototype.split('/')` is
  `splitSegs` (hand-rolled structural recursion over the character list, so
  the kernel can evaluate it); `substring(1)` is `dropChars s 1`;
  `substring(0,1)` is `takeChars s 1`; `toLowerCase` is `Char.toLower` mapped
  over the characters (ASCII case folding, adequate for the claims).
* Out-of-bounds array access (`hashParts[x]` yields `undefined`) is modelled
  with `Option String`: `List.get?` returns `none` out of bounds, and the JS
  helper `lowerCase` (which passes falsy values through unchanged) becomes a
  function on `Option String`.
* A route's pattern is either a string (`Pattern.str`) or a regular
  expression; the regex is abstracted as its decidable test
  (`Pattern.regex (test : String → Bool)`), which is all `navigate` uses
  (`pathname.substring(1).match(pattern)` truthiness).
* Handlers are opaque values of a type parameter `α`; invoking a handler is
  modelled by recording the triple (route index, handler, argument) in the
  returned invocation list.  `navigate` returns the list of handler
  invocations it performs: `[]` when no route matches (the JS code then only
  pushes the default route into history, an external effect outside the
  matching core), and a singleton when a route matches (the JS code
  `return`s immediately after the call).
-/

/-- JS `value.toLowerCase()` on a Lean string (ASCII case folding). -/
def toLowerStr (s : String) : String :=
  String.mk (s.data.map Char.toLower)

/-- JS helper `lowerCase` from `moostaka.js`: lowercases a truthy value and
passes a falsy value (`undefined`, modelled as `none`, or the empty string)
through unchanged. -/
def lowerCase : Option String → Option String
  | none => none
  | some s => if s = "" then some s else some (toLowerStr s)

/-- Auxiliary recursion for `splitSegs`: consume characters, cutting at
each `'/'`. -/
def splitAux : List Char → List Char → List String
  | [], acc => [String.mk acc.reverse]
  | c :: cs, acc =>
    if c = '/' then String.mk acc.reverse :: splitAux cs []
    else splitAux cs (c :: acc)

/-- JS `s.split('/')`: e.g. `"" ↦ [""]`, `"/" ↦ ["", ""]`,
`"/users/42" ↦ ["", "users", "42"]`. -/
def splitSegs (s : String) : List String :=
  splitAux s.data []

/-- JS `s.substring(0, n)` (here only used with `n = 1`). -/
def takeChars (s : String) (n : Nat) : String :=
  String.mk (s.data.take n)

/-- JS `s.substring(n)` (here only used with `n = 1`). -/
def dropChars (s : String) (n : Nat) : String :=
  String.mk (s.data.drop n)

/-- A route pattern: a literal/parameterised segment string, or a regular
expression abstracted as its match test against a string. -/
inductive Pattern where
  | str (pattern : String)
  | regex (test : String → Bool)

/-- A registered route: a pattern paired with a handler (opaque). -/
structure Route (α : Type) where
  pattern : Pattern
  handler : α

/-- The argument a handler is invoked with: the accumulated parameter
assignments (string-pattern routes; values are `Option String` because the JS
code can store `undefined`) or the `{hash: [...]}` structure (regex routes). -/
inductive HandlerArg where
  | params (ps : List (String × Option String))
  | hash (hs : List String)
deriving DecidableEq

/-- The inner segment loop of `Moostaka.navigate` over the pattern segments
`routeParts` (remaining suffix), carrying the current index `x`, the
`thisRouteMatch` flag and the `params` assignment list.  `routeLen` is the
total `routeParts.length` and `hashParts` the split path, both fixed during
the loop.  A `"*"` segment breaks out of the loop immediately. -/
def segLoop (routeLen : Nat) (hashParts : List String) :
    List String → Nat → Bool → List (String × Option String) →
    Bool × List (String × Option String)
  | [], _, matched, params => (matched, params)
  | rp :: rest, x, matched, params =>
    if rp = "*" then
      (matched, params)
    else
      let m1 := if routeLen ≠ hashParts.length then false else matched
      if takeChars rp 1 ≠ ":" then
        let m2 := if lowerCase (some rp) ≠ lowerCase (hashParts.get? x)
                  then false else m1
        segLoop routeLen hashParts rest (x + 1) m2 params
      else
        segLoop routeLen hashParts rest (x + 1) m1
          (params ++ [(dropChars rp 1, hashParts.get? x)])

/-- String-pattern matching for one route, as in `Moostaka.navigate`:
split pattern and path on `'/'` and run the segment loop from index 0 with
the flag `true` and no parameters. -/
def matchStringPattern (pattern pathname : String) :
    Bool × List (String × Option String) :=
  segLoop (splitSegs pattern).length (splitSegs pathname) (splitSegs pattern)
    0 true []

/-- Whether one route's pattern matches a (already default-substituted)
path, per the corresponding branch of `Moostaka.navigate`. -/
def routeMatches (p : Pattern) (pathname : String) : Bool :=
  match p with
  | .str s => (matchStringPattern s pathname).1
  | .regex t => t (dropChars pathname 1)

/-- The argument the handler receives when its route matches. -/
def handlerArg (p : Pattern) (pathname : String) : HandlerArg :=
  match p with
  | .str s => .params (matchStringPattern s pathname).2
  | .regex _ => .hash (splitSegs (dropChars pathname 1))

/-- The route loop of `Moostaka.navigate`: try each route in order, invoke
the first matching route's handler and return (the JS `return` statements). -/
def navigateLoop (pathname : String) :
    List (Route α) → Nat → List (Nat × α × HandlerArg)
  | [], _ => []
  | r :: rest, i =>
    match r.pattern with
    | .str s =>
      if (matchStringPattern s pathname).1 then
        [(i, r.handler, .params (matchStringPattern s pathname).2)]
      else navigateLoop pathname rest (i + 1)
    | .regex t =>
      if t (dropChars pathname 1) then
        [(i, r.handler, .hash (splitSegs (dropChars pathname 1)))]
      else navigateLoop pathname rest (i + 1)

/-- The default-route substitution at the top of `Moostaka.navigate`:
`if(!pathname || pathname === '/') pathname = this.defaultRoute`. -/
def substPath (defaultRoute pathname : String) : String :=
  if pathname = "" ∨ pathname = "/" then defaultRoute else pathname

/-- `Moostaka.navigate`, returning the list of handler invocations
(route index, handler, argument) it performs. -/
def navigate (defaultRoute : String) (routes : List (Route α))
    (pathname : String) : List (Nat × α × HandlerArg) :=
  navigateLoop (substPath defaultRoute pathname) routes 0

/-- `Moostaka.route` (route registration): push the pattern/handler pair. -/
def route (routes : List (Route α)) (pattern : Pattern) (handler : α) :
    List (Route α) :=
  routes ++ [{ pattern := pattern, handler := handler }]

/-- The per-segment check performed by the loop body for a non-`"*"` pattern
segment, leaving aside the length check: a literal segment must compare equal
case-insensitively (through `lowerCase`) to the path segment at the same
index; a parameter segment (leading `:`) is always accepted. -/
def segOk (rp : String) (hseg : Option String) : Bool :=
  if takeChars rp 1 ≠ ":" then decide (lowerCase (some rp) = lowerCase hseg)
  else true

/-- Whether the loop body at a non-`"*"` pattern segment sets the
`thisRouteMatch` flag to `false`: a segment-count mismatch, or a failed
case-insensitive literal comparison. -/
def segSetsFalse (routeLen hashLen : Nat) (rp : String)
    (hseg : Option String) : Bool :=
  decide (routeLen ≠ hashLen) ||
    (decide (takeChars rp 1 ≠ ":") &&
      decide (lowerCase (some rp) ≠ lowerCase hseg))

/-- The parameter mapping the loop accumulates when it runs over all of
`routeParts` (no `"*"` break): each pattern segment with a leading `:` binds
its name (the segment with the `:` stripped) to the path segment at the same
index. -/
def extractParams : List String → Nat → List String →
    List (String × Option String)
  | [], _, _ => []
  | rp :: rest, x, hp =>
    if takeChars rp 1 = ":" then
      (dropChars rp 1, hp.get? x) :: extractParams rest (x + 1) hp
    else extractParams rest (x + 1) hp

/-- `splitSegs` never returns the empty list (JS `split` always yields at
least one element). -/
theorem splitAux_ne_nil : ∀ (l acc : List Char), splitAux l acc ≠ []
  | [], _ => by simp [splitAux]
  | c :: cs, acc => by
    simp only [splitAux]
    split
    · simp
    · exact splitAux_ne_nil cs (c :: acc)

/-- Once the `thisRouteMatch` flag is `false` it stays `false`: no loop
branch ever resets it to `true`. -/
theorem segLoop_fst_false (L : Nat) (hp : List String) :
    ∀ (rest : List String) (x : Nat) (ps : List (String × Option String)),
      (segLoop L hp rest x false ps).1 = false := by
  intro rest
  induction rest with
  | nil => intro x ps; rfl
  | cons rp rest ih =>
    intro x ps
    simp only [segLoop, ite_self]
    split
    · rfl
    · split
      · exact ih (x + 1) ps
      · exact ih (x + 1) (ps ++ [(dropChars rp 1, hp.get? x)])

/-- If the pattern has exactly as many segments as the path and every
pattern segment is either `"*"` or passes its per-segment check, the loop
leaves the flag `true`. -/
theorem segLoop_fst_true (hp : List String) :
    ∀ (rest : List String) (x : Nat) (ps : List (String × Option String)),
      (∀ i r, rest.get? i = some r →
        r = "*" ∨ segOk r (hp.get? (x + i)) = true) →
      (segLoop hp.length hp rest x true ps).1 = true := by
  intro rest
  induction rest with
  | nil => intro x ps _; rfl
  | cons rp rest ih =>
    intro x ps hok
    simp only [segLoop, ne_eq, not_true_eq_false, if_false, ite_self]
    rcases hok 0 rp rfl with hstar | hseg
    · simp [hstar]
    · split
      · rfl
      · have hrec : ∀ i r, rest.get? i = some r →
            r = "*" ∨ segOk r (hp.get? (x + 1 + i)) = true := by
          intro i r hr
          have := hok (i + 1) r (by simpa using hr)
          rwa [show x + (i + 1) = x + 1 + i by omega] at this
        split
        · rename_i hlit
          simp only [segOk, ne_eq, hlit, not_false_eq_true, if_true,
            decide_eq_true_eq, Nat.add_zero] at hseg
          rw [if_neg (not_not_intro hseg)]
          exact ih (x + 1) ps hrec
        · exact ih (x + 1) _ hrec

/-- If some pattern segment at index `k`, with no `"*"` at or before `k`,
sets the flag to `false`, the loop result is `false` whatever the incoming
flag was: the wildcard only breaks out of iteration, it cannot undo an
earlier disqualification. -/
theorem segLoop_fst_fail (L : Nat) (hp : List String) :
    ∀ (rest : List String) (x : Nat) (b : Bool)
      (ps : List (String × Option String)) (k : Nat) (rk : String),
      rest.get? k = some rk →
      (∀ y r, y ≤ k → rest.get? y = some r → r ≠ "*") →
      segSetsFalse L hp.length rk (hp.get? (x + k)) = true →
      (segLoop L hp rest x b ps).1 = false := by
  intro rest
  induction rest with
  | nil => intro x b ps k rk hk; simp at hk
  | cons rp rest ih =>
    intro x b ps k rk hk hstar hfail
    have hrp : rp ≠ "*" := hstar 0 rp (Nat.zero_le k) rfl
    simp only [segLoop]
    rw [if_neg hrp]
    cases k with
    | zero =>
      have hrk : rp = rk := by simpa using hk
      subst hrk
      rw [segSetsFalse] at hfail
      rw [Nat.add_zero] at hfail
      by_cases hlen : L ≠ hp.length
      · rw [if_pos hlen]
        split
        · rw [ite_self]
          exact segLoop_fst_false L hp rest (x + 1) ps
        · exact segLoop_fst_false L hp rest (x + 1)
            (ps ++ [(dropChars rp 1, hp.get? x)])
      · rw [if_neg hlen]
        simp only [decide_eq_true_eq, Bool.or_eq_true, Bool.and_eq_true] at hfail
        rcases hfail with h | ⟨hlit, hne⟩
        · exact absurd h hlen
        · rw [if_pos hlit, if_pos hne]
          exact segLoop_fst_false L hp rest (x + 1) ps
    | succ k =>
      have hk' : rest.get? k = some rk := by simpa using hk
      have hstar' : ∀ y r, y ≤ k → rest.get? y = some r → r ≠ "*" := by
        intro y r hy hr
        exact hstar (y + 1) r (by omega) (by simpa using hr)
      have hfail' :
          segSetsFalse L hp.length rk (hp.get? (x + 1 + k)) = true := by
        rwa [show x + 1 + k = x + (k + 1) by omega]
      split
      · split
        · exact ih (x + 1) _ ps k rk hk' hstar' hfail'
        · exact ih (x + 1) _ ps k rk hk' hstar' hfail'
      · exact ih (x + 1) _ (ps ++ [(dropChars rp 1, hp.get? x)]) k rk hk'
          hstar' hfail'

/-- When no segment is `"*"` the loop never breaks, and the accumulated
parameter list is exactly `extractParams` appended to the incoming one. -/
theorem segLoop_snd (L : Nat) (hp : List String) :
    ∀ (rest : List String) (x : Nat) (b : Bool)
      (ps : List (String × Option String)),
      "*" ∉ rest →
      (segLoop L hp rest x b ps).2 = ps ++ extractParams rest x hp := by
  intro rest
  induction rest with
  | nil => intro x b ps _; simp [segLoop, extractParams]
  | cons rp rest ih =>
    intro x b ps hnw
    have hrp : rp ≠ "*" := by
      intro h; exact hnw (h ▸ List.mem_cons_self rp rest)
    have hrest : "*" ∉ rest := fun h => hnw (List.mem_cons_of_mem rp h)
    simp only [segLoop, extractParams]
    rw [if_neg hrp]
    split
    · exact ih (x + 1) _ ps hrest
    · rename_i hlit
      rw [ih (x + 1) _ (ps ++ [(dropChars rp 1, hp.get? x)]) hrest]
      simp [not_not.mp (by simpa using hlit : ¬¬takeChars rp 1 = ":")]

/-- When no route's pattern matches, the route loop performs no handler
invocation and falls off the end. -/
theorem navigateLoop_empty (path : String) :
    ∀ (routes : List (Route α)) (i0 : Nat),
      (∀ r ∈ routes, routeMatches r.pattern path = false) →
      navigateLoop path routes i0 = [] := by
  intro routes
  induction routes with
  | nil => intro i0 _; rfl
  | cons r rest ih =>
    intro i0 h
    have hr : routeMatches r.pattern path = false :=
      h r (List.mem_cons_self r rest)
    have hrest : ∀ r2 ∈ rest, routeMatches r2.pattern path = false :=
      fun r2 hm => h r2 (List.mem_cons_of_mem _ hm)
    obtain ⟨p, hdl⟩ := r
    cases p with
    | str s =>
      simp only [routeMatches] at hr
      simp only [navigateLoop, hr, Bool.false_eq_true, if_false]
      exact ih (i0 + 1) hrest
    | regex t =>
      simp only [routeMatches] at hr
      simp only [navigateLoop, hr, Bool.false_eq_true, if_false]
      exact ih (i0 + 1) hrest

/-- First-match-wins for the route loop: if route `j` matches and every
route before it does not, the loop invokes exactly route `j`'s handler with
its argument, and nothing after it. -/
theorem navigateLoop_first (path : String) :
    ∀ (routes : List (Route α)) (i0 j : Nat) (rj : Route α),
      routes.get? j = some rj →
      routeMatches rj.pattern path = true →
      (∀ k r, k < j → routes.get? k = some r →
        routeMatches r.pattern path = false) →
      navigateLoop path routes i0 =
        [(i0 + j, rj.handler, handlerArg rj.pattern path)] := by
  intro routes
  induction routes with
  | nil => intro i0 j rj hj _ _; simp at hj
  | cons r rest ih =>
    intro i0 j rj hj hmatch hbefore
    cases j with
    | zero =>
      have hrj : r = rj := by simpa using hj
      subst hrj
      obtain ⟨p, hdl⟩ := r
      cases p with
      | str s =>
        simp only [routeMatches] at hmatch
        simp [navigateLoop, handlerArg, hmatch]
      | regex t =>
        simp only [routeMatches] at hmatch
        simp [navigateLoop, handlerArg, hmatch]
    | succ j =>
      have hr : routeMatches r.pattern path = false :=
        hbefore 0 r (Nat.succ_pos j) rfl
      have hj' : rest.get? j = some rj := by simpa using hj
      have hbefore' : ∀ k r2, k < j → rest.get? k = some r2 →
          routeMatches r2.pattern path = false := by
        intro k r2 hk hr2
        exact hbefore (k + 1) r2 (by omega) (by simpa using hr2)
      obtain ⟨p, hdl⟩ := r
      cases p with
      | str s =>
        simp only [routeMatches] at hr
        simp only [navigateLoop, hr, Bool.false_eq_true, if_false]
        rw [ih (i0 + 1) j rj hj' hmatch hbefore',
          show i0 + 1 + j = i0 + (j + 1) from by omega]
      | regex t =>
        simp only [routeMatches] at hr
        simp only [navigateLoop, hr, Bool.false_eq_true, if_false]
        rw [ih (i0 + 1) j rj hj' hmatch hbefore',
          show i0 + 1 + j = i0 + (j + 1) from by omega]

/-- For a non-empty, non-root path the default-route substitution is the
identity. -/
theorem substPath_id (d path : String) (h1 : path ≠ "") (h2 : path ≠ "/") :
    substPath d path = path := by
  simp [substPath, h1, h2]

/-- `get?` on an append, index inside the left list. -/
theorem get?_append_lt {γ : Type} :
    ∀ (l₁ l₂ : List γ) (n : Nat), n < l₁.length →
      (l₁ ++ l₂).get? n = l₁.get? n
  | _ :: _, _, 0, _ => rfl
  | _ :: l₁, l₂, n + 1, h => get?_append_lt l₁ l₂ n (Nat.lt_of_succ_lt_succ h)
  | [], _, _, h => absurd h (by simp)

/-- `get?` on an append, index at or past the left list. -/
theorem get?_append_ge {γ : Type} :
    ∀ (l₁ l₂ : List γ) (n : Nat), l₁.length ≤ n →
      (l₁ ++ l₂).get? n = l₂.get? (n - l₁.length)
  | [], _, _, _ => by simp
  | _ :: l₁, l₂, n + 1, h => by
    simpa [Nat.succ_sub_succ] using
      get?_append_ge l₁ l₂ n (Nat.le_of_succ_le_succ h)
  | _ :: _, _, 0, h => absurd h (by simp)

/-- A successful `get?` implies the index is in bounds. -/
theorem lt_length_of_get? {γ : Type} :
    ∀ (l : List γ) (n : Nat) (r : γ), l.get? n = some r → n < l.length
  | [], _, _, h => by simp at h
  | _ :: _, 0, _, _ => Nat.succ_pos _
  | _ :: l, n + 1, r, h =>
    Nat.succ_lt_succ (lt_length_of_get? l n r (by simpa using h))

/-- In bounds, `get?` returns the `getD` value. -/
theorem get?_eq_some_getD {γ : Type} (d : γ) :
    ∀ (l : List γ) (n : Nat), n < l.length → l.get? n = some (l.getD n d)
  | _ :: _, 0, _ => rfl
  | _ :: l, n + 1, h => get?_eq_some_getD d l n (Nat.lt_of_succ_lt_succ h)
  | [], _, h => absurd h (by simp)

/-- A successful `get?` returns a member of the list. -/
theorem mem_of_get? {γ : Type} :
    ∀ (l : List γ) (n : Nat) (r : γ), l.get? n = some r → r ∈ l
  | [], _, _, h => by simp at h
  | a :: l, 0, r, h => by
    simp only [List.get?] at h
    exact (Option.some.inj h) ▸ List.mem_cons_self a l
  | a :: l, n + 1, r, h =>
    List.mem_cons_of_mem a (mem_of_get? l n r (by simpa using h))

/-- A successful `get?` determines the `getD` value. -/
theorem getD_of_get? {γ : Type} (d : γ) (l : List γ) (n : Nat) (r : γ)
    (h : l.get? n = some r) : l.getD n d = r := by
  rw [List.get?_eq_getElem?] at h
  simp [List.getD, h]

example : splitSegs "/users/42" = ["", "users", "42"] := by decide
example : splitSegs "" = [""] := by decide
example : splitSegs "/" = ["", ""] := by decide

example :
    navigate "/" [⟨Pattern.str "/users/:id", 1⟩] "/users/42" =
      [(0, 1, HandlerArg.params [("id", some "42")])] := by decide

-- spec example 2, as the code actually behaves: no route matches
example :
    navigate "/" [⟨Pattern.str "/users/:id", 1⟩, ⟨Pattern.str "/users/*", 2⟩]
      "/users/42/edit" = [] := by decide

example :
    navigate "/" [⟨Pattern.str "/users/*", 2⟩] "/users/42" =
      [(0, 2, HandlerArg.params [])] := by decide

example : navigate "/" [⟨Pattern.str "*", 2⟩] "/a/b/c" =
    [(0, 2, HandlerArg.params [])] := by decide

/-!
## Claims
-/

/-- C1 (counterexample): the claim says a route with a trailing wildcard is
exempt from the strict segment-count check, so `/users/*` should match
`/users/42/edit`.  In the code the segment-count check runs on every loop
iteration *before* the wildcard is reached and sets `thisRouteMatch` to
`false`; the wildcard then only breaks out of the loop, and the flag still
gates acceptance — so no handler is invoked. -/
theorem c1_counterexample :
    navigate "/" [⟨Pattern.str "/users/*", (0 : Nat)⟩] "/users/42/edit" =
      [] := by
  decide

/-- C1 (amended): a route whose final pattern segment is `*` matches any
path with the same number of segments as the pattern whose segments before
the wildcard pass the literal (case-insensitive) / parameter checks; the
wildcard exempts its own position (and anything after it) from checking,
but not the total segment count, because the count check runs at every
iterated segment before the wildcard.  (If the wildcard is the pattern's
first segment, no segment is iterated before it, so every path matches.) -/
theorem c1_trailing_wildcard_same_length {α : Type} (d pat path : String)
    (pre : List String) (handler : α)
    (h1 : path ≠ "") (h2 : path ≠ "/")
    (hsplit : splitSegs pat = pre ++ ["*"])
    (hlen : (splitSegs path).length = pre.length + 1)
    (hok : ∀ i, i < pre.length → (pre.getD i "" = "*" ∨
      segOk (pre.getD i "") ((splitSegs path).get? i) = true)) :
    ∃ ps, navigate d [⟨Pattern.str pat, handler⟩] path =
      [(0, handler, HandlerArg.params ps)] := by
  have hm : (matchStringPattern pat path).1 = true := by
    rw [matchStringPattern, hsplit]
    rw [show (pre ++ ["*"]).length = (splitSegs path).length from by
      simp [hlen]]
    refine segLoop_fst_true (splitSegs path) (pre ++ ["*"]) 0 [] ?_
    intro i r hi
    rw [Nat.zero_add]
    by_cases hil : i < pre.length
    · rw [get?_append_lt pre ["*"] i hil] at hi
      have := hok i hil
      rwa [getD_of_get? "" pre i r hi] at this
    · rw [get?_append_ge pre ["*"] i (Nat.le_of_not_lt hil)] at hi
      left
      rcases Nat.lt_or_ge (i - pre.length) 1 with hlt | hge
      · have h0 : i - pre.length = 0 := by omega
        rw [h0] at hi
        exact (Option.some.inj hi).symm
      · rw [List.get?_eq_none.mpr (by simpa using hge)] at hi
        exact absurd hi (by simp)
  refine ⟨(matchStringPattern pat path).2, ?_⟩
  rw [navigate, substPath_id d path h1 h2]
  simp [navigateLoop, hm]

/-- C1 (witness): `/users/*` matches `/users/42` — same segment count, the
wildcard position unconstrained. -/
theorem c1_witness :
    ∃ ps, navigate "/" [⟨Pattern.str "/users/*", (0 : Nat)⟩] "/users/42" =
      [(0, 0, HandlerArg.params ps)] :=
  c1_trailing_wildcard_same_length "/" "/users/*" "/users/42" ["", "users"] 0
    (by decide) (by decide) (by decide) (by decide) (by decide)

/-- C2: for a literal string route containing a wildcard segment, if any
pattern segment iterated before the wildcard position sets the matched flag
to false (a segment-count mismatch or a failed case-insensitive literal
comparison), the route is not accepted: the wildcard only breaks out of
segment iteration, and the accumulated flag still gates acceptance. -/
theorem c2_pre_wildcard_failure_disqualifies {α : Type}
    (d pat path : String) (k : Nat) (handler : α)
    (h1 : path ≠ "") (h2 : path ≠ "/")
    (_hwild : "*" ∈ splitSegs pat)
    (hk : k < (splitSegs pat).length)
    (hpre : ∀ y, y ≤ k → (splitSegs pat).getD y "" ≠ "*")
    (hfail : segSetsFalse (splitSegs pat).length (splitSegs path).length
      ((splitSegs pat).getD k "") ((splitSegs path).get? k) = true) :
    routeMatches (Pattern.str pat) path = false ∧
    navigate d [⟨Pattern.str pat, handler⟩] path = [] := by
  have hm : (matchStringPattern pat path).1 = false := by
    rw [matchStringPattern]
    refine segLoop_fst_fail (splitSegs pat).length (splitSegs path)
      (splitSegs pat) 0 true [] k ((splitSegs pat).getD k "")
      (get?_eq_some_getD "" (splitSegs pat) k hk) ?_ ?_
    · intro y r hy hr
      rw [← getD_of_get? "" (splitSegs pat) y r hr]
      exact hpre y hy
    · rwa [Nat.zero_add]
  refine ⟨by simpa [routeMatches] using hm, ?_⟩
  rw [navigate, substPath_id d path h1 h2]
  simp [navigateLoop, hm]

/-- C2 (witness): `/users/*` against `/users/42/edit` — the count mismatch
at segment 0 (before the wildcard at segment 2) disqualifies the route. -/
theorem c2_witness :
    routeMatches (Pattern.str "/users/*") "/users/42/edit" = false ∧
    navigate "/" [⟨Pattern.str "/users/*", (0 : Nat)⟩] "/users/42/edit" =
      [] :=
  c2_pre_wildcard_failure_disqualifies "/" "/users/*" "/users/42/edit" 0 0
    (by decide) (by decide) (by decide) (by decide) (by decide) (by decide)

/-- C3: routes are tried in registration order and the first matching route
wins exclusively — its handler is invoked exactly once (the returned
invocation list is a singleton naming that route's index, handler and
argument), and no later route's handler is invoked even if it would also
match. -/
theorem c3_first_match_wins {α : Type} (d path : String)
    (routes : List (Route α)) (j : Nat) (rj : Route α)
    (h1 : path ≠ "") (h2 : path ≠ "/")
    (hj : routes.get? j = some rj)
    (hmatch : routeMatches rj.pattern path = true)
    (hbefore : ∀ k r, k < j → routes.get? k = some r →
      routeMatches r.pattern path = false) :
    navigate d routes path =
      [(j, rj.handler, handlerArg rj.pattern path)] := by
  rw [navigate, substPath_id d path h1 h2]
  simpa using navigateLoop_first path routes 0 j rj hj hmatch hbefore

/-- C3 (witness): `/about` and `/:x` both match `/about`; only the
first-registered route's handler fires. -/
theorem c3_witness :
    navigate "/" [⟨Pattern.str "/about", (1 : Nat)⟩, ⟨Pattern.str "/:x", 2⟩]
      "/about" = [(0, 1, HandlerArg.params [])] :=
  (c3_first_match_wins "/" "/about"
    [⟨Pattern.str "/about", (1 : Nat)⟩, ⟨Pattern.str "/:x", 2⟩] 0
    ⟨Pattern.str "/about", 1⟩ (by decide) (by decide) rfl (by decide)
    (by intro k r hk; omega)).trans (by decide)

/-- C4: a literal string route with no wildcard, against a path with the
same number of segments where every non-parameter pattern segment equals
the corresponding path segment case-insensitively, matches; the handler is
invoked with the parameter mapping binding each `:name` pattern segment
(key `name`, the leading `:` stripped) to the corresponding path segment's
value, parameter values being accepted unvalidated. -/
theorem c4_literal_route_matched_with_params {α : Type}
    (d pat path : String) (handler : α)
    (h1 : path ≠ "") (h2 : path ≠ "/")
    (hnw : "*" ∉ splitSegs pat)
    (hlen : (splitSegs pat).length = (splitSegs path).length)
    (hok : ∀ i, i < (splitSegs pat).length →
      segOk ((splitSegs pat).getD i "") ((splitSegs path).get? i) = true) :
    navigate d [⟨Pattern.str pat, handler⟩] path =
      [(0, handler, HandlerArg.params
        (extractParams (splitSegs pat) 0 (splitSegs path)))] := by
  have hm : (matchStringPattern pat path).1 = true := by
    rw [matchStringPattern, hlen]
    refine segLoop_fst_true (splitSegs path) (splitSegs pat) 0 [] ?_
    intro i r hi
    rw [Nat.zero_add]
    right
    have hil : i < (splitSegs pat).length := lt_length_of_get? _ i r hi
    have := hok i hil
    rwa [getD_of_get? "" (splitSegs pat) i r hi] at this
  have hps : (matchStringPattern pat path).2 =
      extractParams (splitSegs pat) 0 (splitSegs path) := by
    rw [matchStringPattern]
    simpa using segLoop_snd (splitSegs pat).length (splitSegs path)
      (splitSegs pat) 0 true [] hnw
  rw [navigate, substPath_id d path h1 h2]
  simp [navigateLoop, hm, hps]

/-- C4 (witness): `/users/:id` against `/Users/42` — case-insensitive
literal match on `users`, parameter `id` bound to `42`. -/
theorem c4_witness :
    navigate "/" [⟨Pattern.str "/users/:id", (0 : Nat)⟩] "/Users/42" =
      [(0, 0, HandlerArg.params [("id", some "42")])] :=
  (c4_literal_route_matched_with_params "/" "/users/:id" "/Users/42" 0
    (by decide) (by decide) (by decide) (by decide) (by decide)).trans
    (by decide)

/-- C5: a literal string route with no `*` segment never matches a path
whose segment count differs from the pattern's: the first loop iteration
already sets the flag to false and nothing resets it, so the route's
handler is not invoked. -/
theorem c5_length_mismatch_no_match {α : Type} (d pat path : String)
    (handler : α)
    (h1 : path ≠ "") (h2 : path ≠ "/")
    (hnw : "*" ∉ splitSegs pat)
    (hlen : (splitSegs pat).length ≠ (splitSegs path).length) :
    routeMatches (Pattern.str pat) path = false ∧
    navigate d [⟨Pattern.str pat, handler⟩] path = [] := by
  obtain ⟨r0, rest, hcons⟩ :=
    List.exists_cons_of_ne_nil
      (show splitSegs pat ≠ [] from splitAux_ne_nil pat.data [])
  have hk : (splitSegs pat).get? 0 = some ((splitSegs pat).getD 0 "") :=
    get?_eq_some_getD "" (splitSegs pat) 0 (by simp [hcons])
  have hm : (matchStringPattern pat path).1 = false := by
    rw [matchStringPattern]
    refine segLoop_fst_fail (splitSegs pat).length (splitSegs path)
      (splitSegs pat) 0 true [] 0 ((splitSegs pat).getD 0 "") hk ?_ ?_
    · intro y r hy hr
      intro hstar
      exact hnw (hstar ▸ mem_of_get? (splitSegs pat) y r hr)
    · simp [segSetsFalse, hlen]
  refine ⟨by simpa [routeMatches] using hm, ?_⟩
  rw [navigate, substPath_id d path h1 h2]
  simp [navigateLoop, hm]

/-- C5 (witness): `/a/:x` (three segments) against `/b` (two segments):
no match, no invocation. -/
theorem c5_witness :
    routeMatches (Pattern.str "/a/:x") "/b" = false ∧
    navigate "/" [⟨Pattern.str "/a/:x", (0 : Nat)⟩] "/b" = [] :=
  c5_length_mismatch_no_match "/" "/a/:x" "/b" 0
    (by decide) (by decide) (by decide) (by decide)

/-- C6: a regex-pattern route is tested against the path with its leading
separator stripped; on success the handler is invoked with `{hash: segments}`
where segments is the stripped path split on `/`, and no further route is
evaluated. -/
theorem c6_regex_route_match {α : Type} (d path : String)
    (t : String → Bool) (handler : α) (rest : List (Route α))
    (hlead : takeChars path 1 = "/") (h2 : path ≠ "/")
    (hm : t (dropChars path 1) = true) :
    navigate d (⟨Pattern.regex t, handler⟩ :: rest) path =
      [(0, handler, HandlerArg.hash (splitSegs (dropChars path 1)))] := by
  have h1 : path ≠ "" := fun h => absurd (h ▸ hlead) (by decide)
  rw [navigate, substPath_id d path h1 h2]
  simp [navigateLoop, hm]

/-- C6 (witness): regex `^post-(\d+)$` (modelled by its match test on
`"post-7"`) against `/post-7` invokes the handler with
`{hash: ["post-7"]}` and stops before a later catch-all route. -/
theorem c6_witness :
    navigate "/"
      [⟨Pattern.regex (fun s => s == "post-7"), (5 : Nat)⟩,
       ⟨Pattern.str "*", 9⟩] "/post-7" =
      [(0, 5, HandlerArg.hash ["post-7"])] :=
  (c6_regex_route_match "/" "/post-7" (fun s => s == "post-7") 5
    [⟨Pattern.str "*", 9⟩] (by decide) (by decide) (by decide)).trans
    (by decide)

/-- C7: an empty path (the only falsy string value) or the root separator
`/` resolves exactly as the configured default path does: same match
decision, same handler invocation, same parameters. -/
theorem c7_empty_or_root_uses_default {α : Type} (d : String)
    (routes : List (Route α)) :
    navigate d routes "" = navigate d routes d ∧
    navigate d routes "/" = navigate d routes d := by
  constructor <;> simp [navigate, substPath]

/-- C8: `navigate` is a total function (so route resolution always runs to
completion without raising); when no registered route matches the
(default-substituted) path the result is the empty invocation list — no
handler is invoked — and the literal-comparison helper passes a
missing/`undefined` segment (`none`) through unchanged instead of
throwing. -/
theorem c8_no_match_no_invocation {α : Type} (d path : String)
    (routes : List (Route α))
    (hnone : ∀ r ∈ routes,
      routeMatches r.pattern (substPath d path) = false) :
    navigate d routes path = [] ∧ lowerCase none = none := by
  refine ⟨?_, rfl⟩
  rw [navigate]
  exact navigateLoop_empty (substPath d path) routes 0 hnone

/-- C8 (witness): neither the literal route `/x/y` nor the regex route
matches `/b`; nothing is invoked. -/
theorem c8_witness :
    navigate "/"
      [⟨Pattern.str "/x/y", (3 : Nat)⟩,
       ⟨Pattern.regex (fun s => s == "zzz"), 4⟩] "/b" = [] ∧
    lowerCase none = none :=
  c8_no_match_no_invocation "/" "/b"
    [⟨Pattern.str "/x/y", (3 : Nat)⟩,
     ⟨Pattern.regex (fun s => s == "zzz"), 4⟩] (by decide)

/-- C9: `route` (registration) appends exactly one Route — the given
pattern/handler pair — at the end of the sequence, for any pattern (no
validation), leaving every previously registered route at its index, in
particular preserving their relative order.  It is a total function, so it
never raises. -/
theorem c9_route_appends {α : Type} (routes : List (Route α)) (p : Pattern)
    (h : α) :
    (route routes p h).length = routes.length + 1 ∧
    (∀ i, i < routes.length → (route routes p h).get? i = routes.get? i) ∧
    (route routes p h).get? routes.length = some ⟨p, h⟩ := by
  refine ⟨by simp [route], ?_, ?_⟩
  · intro i hi
    exact get?_append_lt routes [⟨p, h⟩] i hi
  · rw [route, get?_append_ge routes [⟨p, h⟩] routes.length (Nat.le_refl _),
      Nat.sub_self]
    rfl

/-- C9 (witness): registering `/b` after `/a` yields a two-route list with
`/a` still first and the new pair last. -/
theorem c9_witness :
    (route [⟨Pattern.str "/a", (0 : Nat)⟩] (Pattern.str "/b") 1).length = 2 ∧
    (route [⟨Pattern.str "/a", (0 : Nat)⟩] (Pattern.str "/b") 1).get? 0 =
      some ⟨Pattern.str "/a", 0⟩ ∧
    (route [⟨Pattern.str "/a", (0 : Nat)⟩] (Pattern.str "/b") 1).get? 1 =
      some ⟨Pattern.str "/b", 1⟩ :=
  ⟨(c9_route_appends [⟨Pattern.str "/a", (0 : Nat)⟩] (Pattern.str "/b")
      1).1,
   ((c9_route_appends [⟨Pattern.str "/a", (0 : Nat)⟩] (Pattern.str "/b")
      1).2.1 0 (by decide)).trans rfl,
   (c9_route_appends [⟨Pattern.str "/a", (0 : Nat)⟩] (Pattern.str "/b")
      1).2.2⟩

/-- C10: for a regex-pattern route the 'leading separator' stripping is an
unconditional removal of the path's first character, whatever it is: the
regex is tested on `dropChars path 1` and a successful match invokes the
handler with `{hash: dropChars path 1 split on '/'}`; no hypothesis about
the path starting with `/` is needed. -/
theorem c10_regex_strips_first_char {α : Type} (d path : String)
    (t : String → Bool) (handler : α)
    (h1 : path ≠ "") (h2 : path ≠ "/") :
    navigate d [⟨Pattern.regex t, handler⟩] path =
      if t (dropChars path 1) then
        [(0, handler, HandlerArg.hash (splitSegs (dropChars path 1)))]
      else [] := by
  rw [navigate, substPath_id d path h1 h2]
  cases hm : t (dropChars path 1) <;> simp [navigateLoop, hm]

/-- C10 (witness): path `xpost-7` does not start with `/`; its first
character `x` is removed anyway, the regex test sees `post-7` and the
handler receives `{hash: ["post-7"]}`. -/
theorem c10_witness :
    navigate "/" [⟨Pattern.regex (fun s => s == "post-7"), (7 : Nat)⟩]
      "xpost-7" = [(0, 7, HandlerArg.hash ["post-7"])] :=
  (c10_regex_strips_first_char "/" "xpost-7" (fun s => s == "post-7") 7
    (by decide) (by decide)).trans (by decide)
